import Mathlib

/-!
# Verification of the WebSocket-over-HTTP bridge (src/cmd/webclient/polyfill.js)

A shallow embedding of the polyfill's core: the frame codec (base64 wire
encoding), the connection state machine (readyState, closed flag, send queue,
buffered byte count), the outbound drain loop, the inbound poll loop and the
close/error finalization paths, together with proofs of the specified
properties.

Strings of "binary characters" (the data handed to btoa / returned by atob,
and Uint8Array contents) are modelled as `List Nat` of character codes / byte
values.  The asynchronous control flow (connect callback, drain loop, poll
loop, close finalization) is modelled as a labelled transition system: each
`Action` is one scheduler turn between suspension points of the source, and
`step` is the (deterministic) effect of that turn; actions not enabled in a
state leave it unchanged.
-/

namespace Polyfill

/-- readyState constants, as on the native WebSocket constructor. -/
def CONNECTING : Nat := 0

/-- readyState OPEN. -/
def OPEN : Nat := 1

/-- readyState CLOSING. -/
def CLOSING : Nat := 2

/-- readyState CLOSED. -/
def CLOSED : Nat := 3

/-! ## Frame codec: base64 (btoa / atob) over byte lists -/

/-- Character code of the base64 digit `d` (0-63): A-Z, a-z, 0-9, `+`, `/`. -/
def b64CharCode (d : Nat) : Nat :=
  if d < 26 then 65 + d
  else if d < 52 then 97 + (d - 26)
  else if d < 62 then 48 + (d - 52)
  else if d = 62 then 43
  else 47

/-- Base64 digit value of a character code, `none` for non-alphabet codes
(including 61, the code of the padding character). -/
def b64Decode1 (c : Nat) : Option Nat :=
  if 65 ≤ c ∧ c ≤ 90 then some (c - 65)
  else if 97 ≤ c ∧ c ≤ 122 then some (c - 97 + 26)
  else if 48 ≤ c ∧ c ≤ 57 then some (c - 48 + 52)
  else if c = 43 then some 62
  else if c = 47 then some 63
  else none

/-- Model of the platform `btoa` on a string of byte-valued character codes:
standard base64 with `=` (code 61) padding.  Three input bytes yield four
output digit codes. -/
def btoa : List Nat → List Nat
  | [] => []
  | [a] => [b64CharCode (a / 4), b64CharCode (a % 4 * 16), 61, 61]
  | [a, b] => [b64CharCode (a / 4), b64CharCode (a % 4 * 16 + b / 16),
               b64CharCode (b % 16 * 4), 61]
  | a :: b :: c :: rest =>
      b64CharCode (a / 4) :: b64CharCode (a % 4 * 16 + b / 16) ::
      b64CharCode (b % 16 * 4 + c / 64) :: b64CharCode (c % 64) :: btoa rest

/-- Model of the platform `atob` on canonical (padded) base64, which is
exactly the image of `btoa`; malformed input gives `none` (atob throws). -/
def atob : List Nat → Option (List Nat)
  | [] => some []
  | c0 :: c1 :: c2 :: c3 :: rest =>
      if c2 = 61 ∧ c3 = 61 ∧ rest = [] then
        match b64Decode1 c0, b64Decode1 c1 with
        | some d0, some d1 => some [d0 * 4 + d1 / 16]
        | _, _ => none
      else if c3 = 61 ∧ rest = [] then
        match b64Decode1 c0, b64Decode1 c1, b64Decode1 c2 with
        | some d0, some d1, some d2 =>
            some [d0 * 4 + d1 / 16, d1 % 16 * 16 + d2 / 4]
        | _, _, _ => none
      else
        match b64Decode1 c0, b64Decode1 c1, b64Decode1 c2, b64Decode1 c3,
              atob rest with
        | some d0, some d1, some d2, some d3, some tail =>
            some ((d0 * 4 + d1 / 16) :: (d1 % 16 * 16 + d2 / 4) ::
                  (d2 % 4 * 64 + d3) :: tail)
        | _, _, _, _, _ => none
  | _ => none

/-- The loop body of `encodeBinary`: consume the byte list in chunks of
`0x8000` and concatenate the resulting binary strings.  The `fuel`
parameter bounds the number of iterations (each iteration strictly shrinks
a nonempty list, so `bytes.length` iterations always suffice). -/
def chunkLoop : Nat → List Nat → List Nat
  | _, [] => []
  | 0, bytes => bytes
  | fuel + 1, bytes => bytes.take 0x8000 ++ chunkLoop fuel (bytes.drop 0x8000)

/-- `encodeBinary`'s chunked `String.fromCharCode` loop over the whole
input. -/
def fromCharCodeChunks (bytes : List Nat) : List Nat :=
  chunkLoop bytes.length bytes

/-- `encodeBinary(bytes)` from the source: chunked charcode conversion
followed by `btoa`. -/
def encodeBinary (bytes : List Nat) : List Nat :=
  btoa (fromCharCodeChunks bytes)

/-! ## Data model -/

/-- The `binaryType` property; the setter normalizes anything other than
`arraybuffer` to `blob`. -/
inductive BinaryType
  | blob
  | arraybuffer
deriving DecidableEq, Repr

/-- A value passed to `send()`: string, ArrayBuffer, ArrayBuffer view, Blob,
or anything else (rejected by the codec).  Binary contents are byte lists. -/
inductive RawData
  | str (s : String)
  | arrayBuffer (bytes : List Nat)
  | view (bytes : List Nat)
  | blob (bytes : List Nat)
  | other
deriving DecidableEq, Repr

/-- `calculateSize`: UTF-8 byte length for strings, byte length for
ArrayBuffers, views and Blobs, `0` otherwise. -/
def calculateSize : RawData → Nat
  | .str s => s.utf8ByteSize
  | .arrayBuffer b => b.length
  | .view b => b.length
  | .blob b => b.length
  | .other => 0

/-- The tagged wire envelope submitted via the transport's send endpoint
(the JSON body of `flushQueue`'s POST). -/
inductive WireFrame
  | text (data : String)
  | binary (data : List Nat)
  | close (code : Nat) (reason : String)
deriving DecidableEq, Repr

/-- The encoding step of `flushQueue`: strings become text frames, Blob /
ArrayBuffer / view contents become base64 binary frames, anything else throws
(`Unsupported data type`), modelled as `none`. -/
def encodeFrame : RawData → Option WireFrame
  | .str s => some (.text s)
  | .blob b => some (.binary (encodeBinary b))
  | .arrayBuffer b => some (.binary (encodeBinary b))
  | .view b => some (.binary (encodeBinary b))
  | .other => none

/-- The data delivered in a message event: a decoded text string, an
ArrayBuffer, or a Blob (depending on `binaryType`). -/
inductive MessageData
  | text (s : String)
  | arrayBuffer (bytes : List Nat)
  | blob (bytes : List Nat)
deriving DecidableEq, Repr

/-- Non-fatal UTF-8 decoding (TextDecoder with default options); invalid
byte sequences are replaced rather than raising.  Only the valid-input case
matters for the properties proved here. -/
def utf8Decode (bytes : List Nat) : String :=
  match String.fromUTF8? (ByteArray.mk ⟨bytes.map UInt8.ofNat⟩) with
  | some s => s
  | none => "�"

/-- One item of a poll response.  Per the transport interface the tag field
is `type`; `messageType` is carried here as well (always absent on the wire)
because `decodeMessage` in the source consults that name. -/
structure InboundMessage where
  type : String
  messageType : Option String
  data : List Nat
  code : Option Nat
  reason : Option String
deriving DecidableEq, Repr

/-- `decodeMessage`: base64-decode `message.data` (a throw from `atob` is a
decode failure, `none`), then branch on `message.messageType === 'text'` and
otherwise on the handle's `binaryType`. -/
def decodeMessage (binaryType : BinaryType) (m : InboundMessage) :
    Option MessageData :=
  match atob m.data with
  | none => none
  | some bytes =>
      if m.messageType = some "text" then some (.text (utf8Decode bytes))
      else if binaryType = .arraybuffer then some (.arrayBuffer bytes)
      else some (.blob bytes)

/-- One event dispatched on the socket (an entry of the event history). -/
inductive EventRecord
  | openEvt
  | message (data : MessageData) (origin : String)
  | error (msg : String)
  | close (code : Nat) (reason : String) (wasClean : Bool)
deriving DecidableEq, Repr

/-- JavaScript `message.code || 1000`: both absent and `0` are falsy. -/
def jsOrCode : Option Nat → Nat
  | some c => if c = 0 then 1000 else c
  | none => 1000

/-- The phase of the constructor's connect request. -/
inductive ConnPhase
  | connecting
  | done
deriving DecidableEq, Repr

/-- The phase of the single drain activity spawned by `flushQueue`:
inactive, at the loop head, or awaiting the acknowledgment of a submitted
frame (recording the dequeued-to-be frame and its wire encoding). -/
inductive DrainPhase
  | idle
  | loopHead
  | inFlight (raw : RawData) (sz : Nat) (w : WireFrame)
deriving DecidableEq, Repr

/-- The phase of the poll loop. -/
inductive PollPhase
  | notStarted
  | running
  | awaiting
  | stopped
deriving DecidableEq, Repr

/-- The complete per-connection state of `createHttpBridgeWebSocket`.
The fields through `pendingClose` mirror the closure variables of the
source; the remaining fields are history/ghost state used to express the
specified properties: `events` is the dispatch history, `acceptedSends` the
payloads accepted by `queueSend` in call order, `submitted` the wire frames
handed to the transport in submission order, `dequeuedList` the payloads
dequeued after acknowledgment, `headSubmitted` whether the current queue
head has already been submitted, and `activeDrains` the number of running
drain activities.  `connId` is the opaque connection identifier: `none`
models the initial `null` (falsy), `some` a truthy identifier stored from
the connect response. -/
structure SocketState where
  readyState : Nat
  binaryType : BinaryType
  protocol : String
  connId : Option Nat
  isClosed : Bool
  isSending : Bool
  bufferedAmount : Int
  sendQueue : List (RawData × Nat)
  pendingClose : Option (Nat × String)
  connPhase : ConnPhase
  drain : DrainPhase
  pollPhase : PollPhase
  originStr : String
  events : List EventRecord
  acceptedSends : List RawData
  submitted : List WireFrame
  dequeuedList : List RawData
  headSubmitted : Bool
  activeDrains : Nat
deriving DecidableEq, Repr

/-! ## Lifecycle operations -/

/-- `handleClose(code, reason, wasClean)`: a no-op once the closed flag is
set; otherwise sets the flag, moves to CLOSED and dispatches the close
event. -/
def handleClose (s : SocketState) (code : Nat) (reason : String)
    (wasClean : Bool) : SocketState :=
  if s.isClosed = true then s
  else { s with isClosed := true, readyState := CLOSED,
                events := s.events ++ [.close code reason wasClean] }

/-- `handleError(error)`: suppressed when the closed flag is set; otherwise
dispatches an error event and finalizes with code 1006, `wasClean = false`,
using the error's message (or a fallback when it is empty/absent). -/
def handleError (s : SocketState) (msg : String) : SocketState :=
  if s.isClosed = true then s
  else
    handleClose { s with events := s.events ++ [.error msg] } 1006
      (if msg = "" then "Unexpected error" else msg) false

/-- `handleOpen(negotiatedProtocol)`: store the protocol (empty for a falsy
value), move to OPEN, dispatch the open event. -/
def handleOpen (s : SocketState) (negotiatedProtocol : Option String) :
    SocketState :=
  { s with protocol := negotiatedProtocol.getD "",
           readyState := OPEN,
           events := s.events ++ [.openEvt] }

/-- `handleMessage(message)`: drop unless OPEN; a `close`-typed item
finalizes with `message.code || 1000`, `message.reason || ''` and
`wasClean = (message.code === 1000)`; otherwise the item is decoded and
dispatched as a message event (a decode failure is logged and dropped). -/
def handleMessage (s : SocketState) (m : InboundMessage) : SocketState :=
  if s.readyState ≠ OPEN then s
  else if m.type = "close" then
    handleClose s (jsOrCode m.code) (m.reason.getD "") (m.code = some 1000)
  else
    match decodeMessage s.binaryType m with
    | none => s
    | some d => { s with events := s.events ++ [.message d s.originStr] }

/-! ## Outbound send queue -/

/-- `flushQueue`'s synchronous guard: return if a drain activity is already
running, the queue is empty, or the connection is closed; otherwise mark
sending and start the drain activity at its loop head. -/
def flushQueue (s : SocketState) : SocketState :=
  if s.isSending = true ∨ s.sendQueue = [] ∨ s.isClosed = true then s
  else { s with isSending := true, drain := .loopHead,
                activeDrains := s.activeDrains + 1 }

/-- `queueSend(rawData)`: throws unless OPEN; otherwise computes the size,
appends to the queue tail, adds the size to the buffered byte count and
invokes `flushQueue`. -/
def queueSend (s : SocketState) (rawData : RawData) :
    Except String SocketState :=
  if s.readyState ≠ OPEN then .error "WebSocket is not open"
  else
    .ok (flushQueue { s with
      sendQueue := s.sendQueue ++ [(rawData, calculateSize rawData)],
      bufferedAmount := s.bufferedAmount + (calculateSize rawData : Int),
      acceptedSends := s.acceptedSends ++ [rawData] })

/-- One turn of the drain loop at its head: exit when the queue is empty or
the connection closed; throw-and-stop on an unencodable head (routing
through `handleError`); otherwise submit the head's wire encoding and await
the acknowledgment. -/
def drainIter (s : SocketState) : SocketState :=
  match s.drain with
  | .loopHead =>
      match s.sendQueue with
      | [] => { s with drain := .idle, isSending := false,
                       activeDrains := s.activeDrains - 1 }
      | (raw, sz) :: _ =>
          if s.isClosed = true then
            { s with drain := .idle, isSending := false,
                     activeDrains := s.activeDrains - 1 }
          else
            match encodeFrame raw with
            | none =>
                let s1 := handleError s "Unsupported data type"
                { s1 with drain := .idle, isSending := false,
                          activeDrains := s1.activeDrains - 1 }
            | some w =>
                { s with submitted := s.submitted ++ [w],
                         drain := .inFlight raw sz w,
                         headSubmitted := true }
  | _ => s

/-- Acknowledgment of the in-flight submission: dequeue the head, subtract
its size from the buffered byte count (clamped at zero), continue at the
loop head. -/
def ackOkStep (s : SocketState) : SocketState :=
  match s.drain with
  | .inFlight raw sz _ =>
      { s with sendQueue := s.sendQueue.tail,
               bufferedAmount :=
                 if s.bufferedAmount - (sz : Int) < 0 then 0
                 else s.bufferedAmount - (sz : Int),
               dequeuedList := s.dequeuedList ++ [raw],
               drain := .loopHead,
               headSubmitted := false }
  | _ => s

/-- Failure of the in-flight submission: route to `handleError` and stop the
drain activity, leaving the queue (and the buffered byte count) as is. -/
def ackFailStep (s : SocketState) (msg : String) : SocketState :=
  match s.drain with
  | .inFlight _ _ _ =>
      let s1 := handleError s msg
      { s1 with drain := .idle, isSending := false,
                activeDrains := s1.activeDrains - 1 }
  | _ => s

/-! ## close() and finalization -/

/-- `socket.close(code, reason)`: a no-op when already closed or already
CLOSING; otherwise move to CLOSING and run the async body.  The body
executes synchronously up to its first await: with a truthy `connId` it
suspends awaiting the best-effort close-frame notification (which has no
local effect) and the finalization becomes a separate later turn; with
`connId` still null there is no await at all, so `handleClose` runs
synchronously within the `close()` call itself. -/
def socketClose (s : SocketState) (code : Nat) (reason : String) :
    SocketState :=
  if s.isClosed = true ∨ s.readyState = CLOSING then s
  else
    match s.connId with
    | some _ =>
        { s with readyState := CLOSING, pendingClose := some (code, reason) }
    | none =>
        handleClose { s with readyState := CLOSING } code reason
          (code == 1000)

/-- The asynchronous tail of `socket.close` in the truthy-`connId` case
(the only case in which the body suspends): after the (ignored) close-frame
notification, finalize unconditionally with the requested code and reason,
clean exactly when the code is 1000. -/
def closeFinalizeStep (s : SocketState) : SocketState :=
  match s.pendingClose with
  | some (code, reason) =>
      { handleClose s code reason (code == 1000) with pendingClose := none }
  | none => s

/-! ## Scheduler actions -/

/-- One scheduler turn: resolution of the connect request (with the
negotiated protocol, or a failure), a `send()` call, the drain activity's
next turn, the in-flight submission's acknowledgment or failure, the poll
loop's turns, a `close()` call, or the close finalization. -/
inductive Action
  | connectOk (cid : Nat) (protocol : Option String)
  | connectFail (msg : String)
  | sendCall (d : RawData)
  | drainStep
  | ackOk
  | ackFail (msg : String)
  | pollRequest
  | pollStop
  | pollResolveOk (msgs : List InboundMessage)
  | pollResolveFail (msg : String)
  | closeCall (code : Nat) (reason : String)
  | closeFinalize
deriving DecidableEq, Repr

/-- The effect of one scheduler turn.  Turns that are not enabled in the
current state (their coroutine is not at the corresponding suspension
point) leave the state unchanged. -/
def step (s : SocketState) : Action → SocketState
  | .connectOk cid p =>
      if s.connPhase = .connecting then
        { handleOpen s p with connId := some cid, connPhase := .done,
                              pollPhase := .running }
      else s
  | .connectFail msg =>
      if s.connPhase = .connecting then
        { handleError s msg with connPhase := .done }
      else s
  | .sendCall d =>
      match queueSend s d with
      | .ok s1 => s1
      | .error _ => s
  | .drainStep => drainIter s
  | .ackOk => ackOkStep s
  | .ackFail msg => ackFailStep s msg
  | .pollRequest =>
      if s.pollPhase = .running ∧ s.isClosed = false then
        { s with pollPhase := .awaiting }
      else s
  | .pollStop =>
      if s.pollPhase = .running ∧ s.isClosed = true then
        { s with pollPhase := .stopped }
      else s
  | .pollResolveOk msgs =>
      if s.pollPhase = .awaiting then
        { msgs.foldl handleMessage s with pollPhase := .running }
      else s
  | .pollResolveFail msg =>
      if s.pollPhase = .awaiting then
        { (if s.isClosed = true then s else handleError s msg) with
          pollPhase := .stopped }
      else s
  | .closeCall code reason => socketClose s code reason
  | .closeFinalize => closeFinalizeStep s

/-- The state of a freshly constructed bridge socket, before the connect
request resolves. -/
def initState : SocketState :=
  { readyState := CONNECTING, binaryType := .blob, protocol := "",
    connId := none, isClosed := false, isSending := false,
    bufferedAmount := 0,
    sendQueue := [], pendingClose := none, connPhase := .connecting,
    drain := .idle, pollPhase := .notStarted, originStr := "",
    events := [], acceptedSends := [], submitted := [], dequeuedList := [],
    headSubmitted := false, activeDrains := 0 }

/-- Run a list of scheduler turns from a state. -/
def run (s : SocketState) (acts : List Action) : SocketState :=
  acts.foldl step s

/-- Number of close events in an event history. -/
def closeCount (l : List EventRecord) : Nat :=
  (l.filter fun e => match e with | .close _ _ _ => true | _ => false).length

/-- Number of error events in an event history. -/
def errorCount (l : List EventRecord) : Nat :=
  (l.filter fun e => match e with | .error _ => true | _ => false).length

/-- The transitions the specification declares possible:
CONNECTING→OPEN, OPEN→CLOSING, CLOSING→CLOSED, CONNECTING→CLOSED. -/
def allowedTransition (p : Nat × Nat) : Bool :=
  p == (CONNECTING, OPEN) || p == (OPEN, CLOSING)
    || p == (CLOSING, CLOSED) || p == (CONNECTING, CLOSED)

/-- The transitions the code actually exhibits: the specified four, plus
OPEN→CLOSED (remote close notification or transport failure while OPEN,
since `handleClose` never passes through CLOSING), and CLOSED→OPEN (the
connect request resolving successfully after `close()` during CONNECTING
already finalized the socket synchronously, since `handleOpen` does not
check the closed flag). -/
def allowedAmended (p : Nat × Nat) : Bool :=
  allowedTransition p || p == (OPEN, CLOSED) || p == (CLOSED, OPEN)

/-- The inductive invariant of the transition system.  Its conjuncts:
close-event accounting, the closed flag's relation to CLOSED, readyState
range, the queue-discipline decomposition of accepted sends, stored sizes,
submitted frames as an encoded prefix of the accepted sends, existence of a
head for a submitted head, coherence of the drain phase with the
head-submitted marker and with the closed flag, the `isSending` flag, the
drain-activity count, the buffered byte count as the queued-size sum, and
the coherence of the connection identifier / connect phase with the
readyState (an identifier exists only once the connect request resolved,
after which — as after any finalization — the state is never CONNECTING
again, and while the connect request is pending the state can never be
CLOSING, because `close()` before resolution finalizes synchronously). -/
structure Inv (s : SocketState) : Prop where
  closeAcct : closeCount s.events = (if s.isClosed = true then 1 else 0)
  closedState : s.readyState = CLOSED → s.isClosed = true
  rsRange : s.readyState < 4
  queueSplit : s.acceptedSends = s.dequeuedList ++ s.sendQueue.map Prod.fst
  sizesOk : ∀ p ∈ s.sendQueue, p.2 = calculateSize p.1
  subm : s.submitted.map Option.some
    = (s.acceptedSends.take
        (s.dequeuedList.length
          + (if s.headSubmitted = true then 1 else 0))).map encodeFrame
  headEx : s.headSubmitted = true → s.sendQueue ≠ []
  inflightOk : ∀ raw sz w, s.drain = .inFlight raw sz w →
    s.headSubmitted = true ∧ s.sendQueue.head? = some (raw, sz)
      ∧ encodeFrame raw = some w
  loopHeadOk : s.drain = .loopHead → s.headSubmitted = false
  idleClosed : s.drain = .idle → s.headSubmitted = true → s.isClosed = true
  sendingIff : s.isSending = true ↔ s.drain ≠ .idle
  drainsCount : s.activeDrains = (if s.drain = .idle then 0 else 1)
  bufferedSum : s.bufferedAmount = ((s.sendQueue.map Prod.snd).sum : Int)
  idDone : s.connId ≠ none → s.connPhase = .done
  doneNotConnecting : s.connPhase = .done → s.readyState ≠ CONNECTING
  connectingNotClosing : s.connPhase = .connecting → s.readyState ≠ CLOSING
  closedNotConnecting : s.isClosed = true → s.readyState ≠ CONNECTING

/-! ## Codec lemmas -/

theorem chunkLoop_nil : ∀ fuel : Nat, chunkLoop fuel [] = []
  | 0 => rfl
  | _ + 1 => rfl

theorem chunkLoop_eq : ∀ (fuel : Nat) (bytes : List Nat),
    bytes.length ≤ fuel → chunkLoop fuel bytes = bytes
  | fuel, [], _ => chunkLoop_nil fuel
  | 0, b :: rest, h => by simp at h
  | fuel + 1, b :: rest, h => by
      have hlen : ((b :: rest).drop 0x8000).length ≤ fuel := by
        simp only [List.length_drop, List.length_cons]
        simp only [List.length_cons] at h
        omega
      show (b :: rest).take 0x8000
          ++ chunkLoop fuel ((b :: rest).drop 0x8000) = b :: rest
      rw [chunkLoop_eq fuel _ hlen]
      exact List.take_append_drop _ _

/-- The chunking loop concatenates back to exactly its input: chunk size is
irrelevant to the assembled binary string. -/
theorem fromCharCodeChunks_eq (bytes : List Nat) :
    fromCharCodeChunks bytes = bytes :=
  chunkLoop_eq bytes.length bytes le_rfl

theorem b64_decode_encode_fin :
    ∀ d : Fin 64, b64Decode1 (b64CharCode d.val) = some d.val := by decide

theorem b64Decode1_b64CharCode (d : Nat) (h : d < 64) :
    b64Decode1 (b64CharCode d) = some d :=
  b64_decode_encode_fin ⟨d, h⟩

theorem b64CharCode_ne_61 (d : Nat) : b64CharCode d ≠ 61 := by
  unfold b64CharCode
  repeat' split
  all_goals omega

theorem atob_pad2 (c0 c1 : Nat) :
    atob [c0, c1, 61, 61]
      = match b64Decode1 c0, b64Decode1 c1 with
        | some d0, some d1 => some [d0 * 4 + d1 / 16]
        | _, _ => none := by
  rfl

theorem atob_pad1 (c0 c1 c2 : Nat) (h : c2 ≠ 61) :
    atob [c0, c1, c2, 61]
      = match b64Decode1 c0, b64Decode1 c1, b64Decode1 c2 with
        | some d0, some d1, some d2 =>
            some [d0 * 4 + d1 / 16, d1 % 16 * 16 + d2 / 4]
        | _, _, _ => none := by
  conv_lhs => rw [atob]
  rw [if_neg (by simp [h]), if_pos (by simp)]

theorem atob_chunk (c0 c1 c2 c3 : Nat) (rest : List Nat)
    (h2 : c2 ≠ 61) (h3 : c3 ≠ 61) :
    atob (c0 :: c1 :: c2 :: c3 :: rest)
      = match b64Decode1 c0, b64Decode1 c1, b64Decode1 c2, b64Decode1 c3,
              atob rest with
        | some d0, some d1, some d2, some d3, some tail =>
            some ((d0 * 4 + d1 / 16) :: (d1 % 16 * 16 + d2 / 4) ::
                  (d2 % 4 * 64 + d3) :: tail)
        | _, _, _, _, _ => none := by
  conv_lhs => rw [atob]
  rw [if_neg (by simp [h2]), if_neg (by simp [h3])]

/-- Decoding inverts encoding on byte lists: `atob` of `btoa` restores the
input exactly. -/
theorem atob_btoa : ∀ bs : List Nat, (∀ b ∈ bs, b < 256) →
    atob (btoa bs) = some bs
  | [], _ => rfl
  | [a], h => by
      have ha : a < 256 := h a (by simp)
      show atob [b64CharCode (a / 4), b64CharCode (a % 4 * 16), 61, 61] = _
      rw [atob_pad2, b64Decode1_b64CharCode (a / 4) (by omega),
          b64Decode1_b64CharCode (a % 4 * 16) (by omega)]
      simp only [Option.some.injEq, List.cons.injEq, and_true]
      omega
  | [a, b], h => by
      have ha : a < 256 := h a (by simp)
      have hb : b < 256 := h b (by simp)
      show atob [b64CharCode (a / 4), b64CharCode (a % 4 * 16 + b / 16),
                 b64CharCode (b % 16 * 4), 61] = _
      rw [atob_pad1 _ _ _ (b64CharCode_ne_61 _),
          b64Decode1_b64CharCode (a / 4) (by omega),
          b64Decode1_b64CharCode (a % 4 * 16 + b / 16) (by omega),
          b64Decode1_b64CharCode (b % 16 * 4) (by omega)]
      simp only [Option.some.injEq, List.cons.injEq, and_true]
      constructor
      · omega
      · omega
  | a :: b :: c :: rest, h => by
      have ha : a < 256 := h a (by simp)
      have hb : b < 256 := h b (by simp)
      have hc : c < 256 := h c (by simp)
      have ih := atob_btoa rest (fun x hx => h x (by simp [hx]))
      show atob (b64CharCode (a / 4) :: b64CharCode (a % 4 * 16 + b / 16) ::
                 b64CharCode (b % 16 * 4 + c / 64) :: b64CharCode (c % 64) ::
                 btoa rest) = _
      rw [atob_chunk _ _ _ _ _ (b64CharCode_ne_61 _) (b64CharCode_ne_61 _),
          b64Decode1_b64CharCode (a / 4) (by omega),
          b64Decode1_b64CharCode (a % 4 * 16 + b / 16) (by omega),
          b64Decode1_b64CharCode (b % 16 * 4 + c / 64) (by omega),
          b64Decode1_b64CharCode (c % 64) (by omega), ih]
      simp only [Option.some.injEq, List.cons.injEq]
      refine ⟨by omega, by omega, by omega, trivial⟩

/-! ## Elementary helper lemmas -/

theorem take_append_left {α : Type} :
    ∀ (l l' : List α) (n : Nat), n ≤ l.length → (l ++ l').take n = l.take n
  | _, _, 0, _ => by simp
  | a :: l, l', n + 1, h => by
      simpa using take_append_left l l' n (by simpa using h)
  | [], _, n + 1, h => by simp at h

theorem take_length_add {α : Type} :
    ∀ (l l' : List α) (n : Nat), (l ++ l').take (l.length + n) = l ++ l'.take n
  | [], l', n => by simp
  | a :: l, l', n => by
      have : a :: l ++ l' = a :: (l ++ l') := rfl
      rw [this, List.length_cons, Nat.add_right_comm, List.take_succ_cons,
          take_length_add l l' n]
      rfl

theorem closeCount_append (l1 l2 : List EventRecord) :
    closeCount (l1 ++ l2) = closeCount l1 + closeCount l2 := by
  simp [closeCount, List.filter_append]

theorem errorCount_append (l1 l2 : List EventRecord) :
    errorCount (l1 ++ l2) = errorCount l1 + errorCount l2 := by
  simp [errorCount, List.filter_append]

theorem closeCount_openEvt : closeCount [.openEvt] = 0 := rfl

theorem closeCount_message (d : MessageData) (o : String) :
    closeCount [.message d o] = 0 := rfl

theorem closeCount_error (msg : String) : closeCount [.error msg] = 0 := rfl

theorem closeCount_close (c : Nat) (r : String) (w : Bool) :
    closeCount [.close c r w] = 1 := rfl

/-! ## Branch characterizations of the finalization paths -/

theorem handleClose_of_closed (s : SocketState) (c : Nat) (r : String)
    (w : Bool) (h : s.isClosed = true) : handleClose s c r w = s := by
  simp [handleClose, h]

theorem handleClose_of_not_closed (s : SocketState) (c : Nat) (r : String)
    (w : Bool) (h : s.isClosed = false) :
    handleClose s c r w
      = { s with isClosed := true, readyState := CLOSED,
                 events := s.events ++ [.close c r w] } := by
  simp [handleClose, h]

theorem handleError_of_closed (s : SocketState) (msg : String)
    (h : s.isClosed = true) : handleError s msg = s := by
  simp [handleError, h]

theorem handleError_of_not_closed (s : SocketState) (msg : String)
    (h : s.isClosed = false) :
    handleError s msg
      = { s with isClosed := true, readyState := CLOSED,
                 events := s.events ++
                   [.error msg,
                    .close 1006 (if msg = "" then "Unexpected error" else msg)
                      false] } := by
  simp only [handleError, h, Bool.false_eq_true, if_false]
  rw [handleClose_of_not_closed _ _ _ _ (by simp [h])]
  simp

/-! ## The reachability invariant -/

theorem inv_initState : Inv initState := by
  refine ⟨?_, ?_, ?_, ?_, ?_, ?_, ?_, ?_, ?_, ?_, ?_, ?_, ?_, ?_, ?_, ?_,
          ?_⟩ <;>
    simp [initState, closeCount, CONNECTING, CLOSED, CLOSING]

theorem inv_handleClose (s : SocketState) (c : Nat) (r : String) (w : Bool)
    (h : Inv s) : Inv (handleClose s c r w) := by
  cases hc : s.isClosed
  · rw [handleClose_of_not_closed s c r w hc]
    refine ⟨?_, ?_, ?_, h.queueSplit, h.sizesOk, h.subm, h.headEx,
            h.inflightOk, h.loopHeadOk, ?_, h.sendingIff, h.drainsCount,
            h.bufferedSum, h.idDone, ?_, ?_, ?_⟩
    · have h0 : closeCount s.events = 0 := by
        have := h.closeAcct
        rw [hc] at this
        simpa using this
      rw [closeCount_append, h0, closeCount_close]
      simp
    · intro _; rfl
    · simp [CLOSED]
    · intro _ _; rfl
    · intro _ hx
      exact absurd (show CLOSED = CONNECTING from hx) (by decide)
    · intro _ hx
      exact absurd (show CLOSED = CLOSING from hx) (by decide)
    · intro _ hx
      exact absurd (show CLOSED = CONNECTING from hx) (by decide)
  · rw [handleClose_of_closed s c r w hc]
    exact h

theorem inv_handleError (s : SocketState) (msg : String) (h : Inv s) :
    Inv (handleError s msg) := by
  unfold handleError
  split
  · exact h
  · apply inv_handleClose
    exact { h with
      closeAcct := by
        rw [closeCount_append, closeCount_error, Nat.add_zero]
        exact h.closeAcct }

theorem inv_handleMessage (s : SocketState) (m : InboundMessage)
    (h : Inv s) : Inv (handleMessage s m) := by
  unfold handleMessage
  split
  · exact h
  · split
    · exact inv_handleClose _ _ _ _ h
    · split
      · exact h
      · exact { h with
          closeAcct := by
            rw [closeCount_append, closeCount_message, Nat.add_zero]
            exact h.closeAcct }

theorem inv_foldl_handleMessage (msgs : List InboundMessage) :
    ∀ s : SocketState, Inv s → Inv (msgs.foldl handleMessage s) := by
  induction msgs with
  | nil => intro s h; exact h
  | cons m rest ih =>
      intro s h
      exact ih (handleMessage s m) (inv_handleMessage s m h)

theorem inv_flushQueue (s : SocketState) (h : Inv s) :
    Inv (flushQueue s) := by
  unfold flushQueue
  split
  · exact h
  · rename_i hg
    push_neg at hg
    obtain ⟨hs, hq, hc⟩ := hg
    have hidle : s.drain = .idle := by
      by_contra hd
      exact hs (h.sendingIff.mpr hd)
    have hhs : s.headSubmitted = false := by
      cases hhsb : s.headSubmitted
      · rfl
      · exact absurd (h.idleClosed hidle hhsb) hc
    refine ⟨h.closeAcct, h.closedState, h.rsRange, h.queueSplit, h.sizesOk,
            h.subm, h.headEx, ?_, ?_, ?_, ?_, ?_, h.bufferedSum, h.idDone,
            h.doneNotConnecting, h.connectingNotClosing,
            h.closedNotConnecting⟩
    · intro raw sz w hw; simp at hw
    · intro _; exact hhs
    · intro hx; simp at hx
    · simp
    · have := h.drainsCount
      rw [hidle] at this
      simp at this
      simp [this]

theorem take_dequeued (s : SocketState) (h : Inv s) :
    s.acceptedSends.take s.dequeuedList.length = s.dequeuedList := by
  rw [h.queueSplit]
  have h0 := take_length_add s.dequeuedList (s.sendQueue.map Prod.fst) 0
  simp only [Nat.add_zero, List.take_zero, List.append_nil] at h0
  exact h0

theorem take_dequeued_succ (s : SocketState) (h : Inv s)
    (raw : RawData) (sz : Nat) (rest : List (RawData × Nat))
    (hq : s.sendQueue = (raw, sz) :: rest) :
    s.acceptedSends.take (s.dequeuedList.length + 1)
      = s.dequeuedList ++ [raw] := by
  rw [h.queueSplit, take_length_add, hq]
  rfl

theorem inv_sendCall (s : SocketState) (d : RawData) (h : Inv s) :
    Inv (step s (.sendCall d)) := by
  show Inv (match queueSend s d with | .ok s1 => s1 | .error _ => s)
  unfold queueSend
  by_cases ho : s.readyState ≠ OPEN
  · rw [if_pos ho]
    exact h
  · rw [if_neg ho]
    apply inv_flushQueue
    refine ⟨h.closeAcct, h.closedState, h.rsRange, ?_, ?_, ?_, ?_, ?_,
            h.loopHeadOk, h.idleClosed, h.sendingIff, h.drainsCount, ?_,
            h.idDone, h.doneNotConnecting, h.connectingNotClosing,
            h.closedNotConnecting⟩
    · rw [h.queueSplit]
      simp [List.map_append, List.append_assoc]
    · intro p hp
      simp only [List.mem_append, List.mem_singleton] at hp
      rcases hp with hp | hp
      · exact h.sizesOk p hp
      · subst hp; rfl
    · have hlen : s.dequeuedList.length
          + (if s.headSubmitted = true then 1 else 0)
          ≤ s.acceptedSends.length := by
        rw [h.queueSplit]
        simp only [List.length_append, List.length_map]
        split
        · rename_i hhs
          have h1 : 0 < s.sendQueue.length :=
            List.length_pos.mpr (h.headEx hhs)
          omega
        · omega
      show s.submitted.map Option.some
        = ((s.acceptedSends ++ [d]).take _).map encodeFrame
      rw [take_append_left _ _ _ hlen]
      exact h.subm
    · intro _
      simp
    · intro raw sz w hw
      obtain ⟨h1, h2, h3⟩ := h.inflightOk raw sz w hw
      refine ⟨h1, ?_, h3⟩
      show (s.sendQueue ++ [(d, calculateSize d)]).head? = some (raw, sz)
      rw [List.head?_append_of_ne_nil _ (h.headEx h1)]
      exact h2
    · show s.bufferedAmount + (calculateSize d : Int) = _
      rw [h.bufferedSum]
      push_cast [List.map_append, List.sum_append]
      simp

theorem inv_drainIter (s : SocketState) (h : Inv s) : Inv (drainIter s) := by
  unfold drainIter
  split
  · rename_i hd
    split
    · rename_i hq
      refine ⟨h.closeAcct, h.closedState, h.rsRange, h.queueSplit, h.sizesOk,
              h.subm, h.headEx, ?_, ?_, ?_, ?_, ?_, h.bufferedSum, h.idDone,
              h.doneNotConnecting, h.connectingNotClosing,
              h.closedNotConnecting⟩
      · intro _ _ _ hx; simp at hx
      · intro hx; simp at hx
      · intro _ hhs
        rw [h.loopHeadOk hd] at hhs
        simp at hhs
      · simp
      · rw [h.drainsCount, hd]
        simp
    · rename_i raw sz rest hq
      split
      · rename_i hc
        refine ⟨h.closeAcct, h.closedState, h.rsRange, h.queueSplit,
                h.sizesOk, h.subm, h.headEx, ?_, ?_, ?_, ?_, ?_,
                h.bufferedSum, h.idDone, h.doneNotConnecting,
                h.connectingNotClosing, h.closedNotConnecting⟩
        · intro _ _ _ hx; simp at hx
        · intro hx; simp at hx
        · intro _ _; exact hc
        · simp
        · rw [h.drainsCount, hd]
          simp
      · rename_i hc
        have hcf : s.isClosed = false := by
          cases hcb : s.isClosed
          · rfl
          · exact absurd hcb hc
        split
        · rename_i henc
          rw [handleError_of_not_closed s _ hcf]
          have h0 : closeCount s.events = 0 := by
            have := h.closeAcct
            rw [hcf] at this
            simpa using this
          refine ⟨?_, ?_, ?_, h.queueSplit, h.sizesOk, h.subm, h.headEx,
                  ?_, ?_, ?_, ?_, ?_, h.bufferedSum, h.idDone, ?_, ?_, ?_⟩
          · show closeCount (s.events ++ _) = _
            rw [closeCount_append, h0]
            rfl
          · intro _; rfl
          · simp [CLOSED]
          · intro _ _ _ hx; simp at hx
          · intro hx; simp at hx
          · intro _ _; rfl
          · simp
          · show s.activeDrains - 1 = _
            rw [h.drainsCount, hd]
            simp
          · intro _ hx
            exact absurd (show CLOSED = CONNECTING from hx) (by decide)
          · intro _ hx
            exact absurd (show CLOSED = CLOSING from hx) (by decide)
          · intro _ hx
            exact absurd (show CLOSED = CONNECTING from hx) (by decide)
        · rename_i w henc
          have hhs0 : s.headSubmitted = false := h.loopHeadOk hd
          refine ⟨h.closeAcct, h.closedState, h.rsRange, h.queueSplit,
                  h.sizesOk, ?_, ?_, ?_, ?_, ?_, ?_, ?_, h.bufferedSum,
                  h.idDone, h.doneNotConnecting, h.connectingNotClosing,
                  h.closedNotConnecting⟩
          · have hsubm := h.subm
            rw [hhs0] at hsubm
            simp only [Bool.false_eq_true, if_false, Nat.add_zero] at hsubm
            rw [take_dequeued s h] at hsubm
            show (s.submitted ++ [w]).map Option.some
              = (s.acceptedSends.take (s.dequeuedList.length + 1)).map
                  encodeFrame
            rw [take_dequeued_succ s h raw sz rest hq, List.map_append,
                List.map_append, hsubm]
            simp [henc]
          · intro _
            rw [hq]
            simp
          · intro r1 z1 w1 hx
            cases hx
            refine ⟨rfl, ?_, henc⟩
            rw [hq]
            rfl
          · intro hx; simp at hx
          · intro hx; simp at hx
          · have hsend : s.isSending = true := h.sendingIff.mpr (by
              rw [hd]; simp)
            rw [hsend]
            simp
          · rw [h.drainsCount, hd]
            simp
  · exact h

theorem inv_ackOk (s : SocketState) (h : Inv s) : Inv (ackOkStep s) := by
  unfold ackOkStep
  split
  · rename_i raw sz w hd
    obtain ⟨hhs, hhead, henc⟩ := h.inflightOk raw sz w hd
    obtain ⟨rest, hq⟩ : ∃ rest, s.sendQueue = (raw, sz) :: rest := by
      cases hqq : s.sendQueue with
      | nil => rw [hqq] at hhead; simp at hhead
      | cons p rest =>
          rw [hqq] at hhead
          simp at hhead
          subst hhead
          exact ⟨rest, rfl⟩
    have hbuf : s.bufferedAmount
        = (sz : Int) + ((rest.map Prod.snd).sum : Int) := by
      rw [h.bufferedSum, hq]
      push_cast [List.map_cons, List.sum_cons]
      ring
    refine ⟨h.closeAcct, h.closedState, h.rsRange, ?_, ?_, ?_, ?_, ?_, ?_,
            ?_, ?_, ?_, ?_, h.idDone, h.doneNotConnecting,
            h.connectingNotClosing, h.closedNotConnecting⟩
    · show s.acceptedSends = (s.dequeuedList ++ [raw]) ++ _
      rw [h.queueSplit, hq]
      simp [List.append_assoc]
    · intro p hp
      apply h.sizesOk
      rw [hq]
      right
      rw [hq] at hp
      exact hp
    · have hsubm := h.subm
      simp only [hhs, eq_self_iff_true, if_true] at hsubm
      show s.submitted.map Option.some
        = (s.acceptedSends.take ((s.dequeuedList ++ [raw]).length
            + (if (false : Bool) = true then 1 else 0))).map encodeFrame
      simp only [List.length_append, List.length_singleton,
                 Bool.false_eq_true, if_false, Nat.add_zero]
      exact hsubm
    · intro hx; simp at hx
    · intro _ _ _ hx; simp at hx
    · intro _; rfl
    · intro hx; simp at hx
    · have hsend : s.isSending = true := h.sendingIff.mpr (by
        rw [hd]; simp)
      rw [hsend]
      simp
    · rw [h.drainsCount, hd]
      simp
    · show (if s.bufferedAmount - (sz : Int) < 0 then 0
            else s.bufferedAmount - (sz : Int)) = _
      rw [hbuf, hq]
      have hge : (0 : Int) ≤ ((rest.map Prod.snd).sum : Int) := by
        positivity
      rw [if_neg (by omega)]
      simp only [List.tail_cons]
      omega
  · exact h

theorem inv_ackFail (s : SocketState) (msg : String) (h : Inv s) :
    Inv (ackFailStep s msg) := by
  unfold ackFailStep
  split
  · rename_i raw sz w hd
    obtain ⟨hhs, hhead, henc⟩ := h.inflightOk raw sz w hd
    cases hc : s.isClosed
    · rw [handleError_of_not_closed s msg hc]
      have h0 : closeCount s.events = 0 := by
        have := h.closeAcct
        rw [hc] at this
        simpa using this
      refine ⟨?_, ?_, ?_, h.queueSplit, h.sizesOk, h.subm, h.headEx, ?_,
              ?_, ?_, ?_, ?_, h.bufferedSum, h.idDone, ?_, ?_, ?_⟩
      · show closeCount (s.events ++ _) = _
        rw [closeCount_append, h0]
        rfl
      · intro _; rfl
      · simp [CLOSED]
      · intro _ _ _ hx; simp at hx
      · intro hx; simp at hx
      · intro _ _; rfl
      · simp
      · show s.activeDrains - 1 = _
        rw [h.drainsCount, hd]
        simp
      · intro _ hx
        exact absurd (show CLOSED = CONNECTING from hx) (by decide)
      · intro _ hx
        exact absurd (show CLOSED = CLOSING from hx) (by decide)
      · intro _ hx
        exact absurd (show CLOSED = CONNECTING from hx) (by decide)
    · rw [handleError_of_closed s msg hc]
      refine ⟨h.closeAcct, h.closedState, h.rsRange, h.queueSplit,
              h.sizesOk, h.subm, h.headEx, ?_, ?_, ?_, ?_, ?_,
              h.bufferedSum, h.idDone, h.doneNotConnecting,
              h.connectingNotClosing, h.closedNotConnecting⟩
      · intro _ _ _ hx; simp at hx
      · intro hx; simp at hx
      · intro _ _; exact hc
      · simp
      · show s.activeDrains - 1 = _
        rw [h.drainsCount, hd]
        simp
  · exact h

theorem inv_fields (s t : SocketState) (h : Inv s)
    (he : t.events = s.events) (hc : t.isClosed = s.isClosed)
    (hr : t.readyState = s.readyState)
    (ha : t.acceptedSends = s.acceptedSends)
    (hdq : t.dequeuedList = s.dequeuedList)
    (hsq : t.sendQueue = s.sendQueue)
    (hsb : t.submitted = s.submitted)
    (hhs : t.headSubmitted = s.headSubmitted)
    (hdr : t.drain = s.drain) (hsn : t.isSending = s.isSending)
    (had : t.activeDrains = s.activeDrains)
    (hb : t.bufferedAmount = s.bufferedAmount)
    (hph : t.connPhase = s.connPhase)
    (hcid : t.connId = s.connId) : Inv t := by
  refine ⟨?_, ?_, ?_, ?_, ?_, ?_, ?_, ?_, ?_, ?_, ?_, ?_, ?_, ?_, ?_, ?_,
          ?_⟩ <;>
    simp only [he, hc, hr, ha, hdq, hsq, hsb, hhs, hdr, hsn, had, hb, hph,
               hcid] <;>
    first
      | exact h.closeAcct
      | exact h.closedState
      | exact h.rsRange
      | exact h.queueSplit
      | exact h.sizesOk
      | exact h.subm
      | exact h.headEx
      | exact h.inflightOk
      | exact h.loopHeadOk
      | exact h.idleClosed
      | exact h.sendingIff
      | exact h.drainsCount
      | exact h.bufferedSum
      | exact h.idDone
      | exact h.doneNotConnecting
      | exact h.connectingNotClosing
      | exact h.closedNotConnecting

theorem inv_step (s : SocketState) (a : Action) (h : Inv s) :
    Inv (step s a) := by
  cases a with
  | connectOk cid p =>
      show Inv (if s.connPhase = .connecting then _ else s)
      split
      · refine ⟨?_, ?_, ?_, h.queueSplit, h.sizesOk, h.subm, h.headEx,
                h.inflightOk, h.loopHeadOk, h.idleClosed, h.sendingIff,
                h.drainsCount, h.bufferedSum, ?_, ?_, ?_, ?_⟩
        · show closeCount (s.events ++ [.openEvt])
            = (if s.isClosed = true then 1 else 0)
          rw [closeCount_append, closeCount_openEvt, Nat.add_zero]
          exact h.closeAcct
        · intro hx
          exact absurd (show OPEN = CLOSED from hx) (by decide)
        · show OPEN < 4
          decide
        · intro _
          rfl
        · intro _ hx
          exact absurd (show OPEN = CONNECTING from hx) (by decide)
        · intro hx
          exact absurd (show ConnPhase.done = ConnPhase.connecting from hx)
            (by simp)
        · intro _ hx
          exact absurd (show OPEN = CONNECTING from hx) (by decide)
      · exact h
  | connectFail msg =>
      show Inv (if s.connPhase = .connecting then _ else s)
      split
      · cases hc : s.isClosed
        · rw [handleError_of_not_closed s msg hc]
          have h0 : closeCount s.events = 0 := by
            have := h.closeAcct
            rw [hc] at this
            simpa using this
          refine ⟨?_, ?_, ?_, h.queueSplit, h.sizesOk, h.subm, h.headEx,
                  h.inflightOk, h.loopHeadOk, ?_, h.sendingIff,
                  h.drainsCount, h.bufferedSum, ?_, ?_, ?_, ?_⟩
          · show closeCount (s.events ++ _) = _
            rw [closeCount_append, h0]
            rfl
          · intro _; rfl
          · simp [CLOSED]
          · intro hhs hcl
            rfl
          · intro _; rfl
          · intro _ hx
            exact absurd (show CLOSED = CONNECTING from hx) (by decide)
          · intro hx
            exact absurd (show ConnPhase.done = ConnPhase.connecting from hx)
              (by simp)
          · intro _ hx
            exact absurd (show CLOSED = CONNECTING from hx) (by decide)
        · rw [handleError_of_closed s msg hc]
          refine ⟨h.closeAcct, h.closedState, h.rsRange, h.queueSplit,
                  h.sizesOk, h.subm, h.headEx, h.inflightOk, h.loopHeadOk,
                  h.idleClosed, h.sendingIff, h.drainsCount, h.bufferedSum,
                  ?_, ?_, ?_, ?_⟩
          · intro _; rfl
          · intro _
            exact h.closedNotConnecting hc
          · intro hx
            exact absurd (show ConnPhase.done = ConnPhase.connecting from hx)
              (by simp)
          · exact h.closedNotConnecting
      · exact h
  | sendCall d => exact inv_sendCall s d h
  | drainStep => exact inv_drainIter s h
  | ackOk => exact inv_ackOk s h
  | ackFail msg => exact inv_ackFail s msg h
  | pollRequest =>
      show Inv (if _ then _ else s)
      split
      · exact inv_fields _ _ h rfl rfl rfl rfl rfl rfl rfl rfl rfl rfl rfl
          rfl rfl rfl
      · exact h
  | pollStop =>
      show Inv (if _ then _ else s)
      split
      · exact inv_fields _ _ h rfl rfl rfl rfl rfl rfl rfl rfl rfl rfl rfl
          rfl rfl rfl
      · exact h
  | pollResolveOk msgs =>
      show Inv (if _ then _ else s)
      split
      · exact inv_fields _ _ (inv_foldl_handleMessage msgs s h) rfl rfl rfl
          rfl rfl rfl rfl rfl rfl rfl rfl rfl rfl rfl
      · exact h
  | pollResolveFail msg =>
      show Inv (if _ then _ else s)
      split
      · split
        · exact inv_fields _ _ h rfl rfl rfl rfl rfl rfl rfl rfl rfl rfl
            rfl rfl rfl rfl
        · exact inv_fields _ _ (inv_handleError s msg h) rfl rfl rfl rfl rfl
            rfl rfl rfl rfl rfl rfl rfl rfl rfl
      · exact h
  | closeCall code reason =>
      show Inv (socketClose s code reason)
      unfold socketClose
      split
      · exact h
      · rename_i hg
        push_neg at hg
        have hcf : s.isClosed = false := by
          cases hcb : s.isClosed
          · rfl
          · exact absurd hcb hg.1
        split
        · rename_i x heq
          refine ⟨h.closeAcct, ?_, ?_, h.queueSplit, h.sizesOk, h.subm,
                  h.headEx, h.inflightOk, h.loopHeadOk, h.idleClosed,
                  h.sendingIff, h.drainsCount, h.bufferedSum, ?_, ?_, ?_,
                  ?_⟩
          · intro hx
            simp [CLOSING, CLOSED] at hx
          · simp [CLOSING]
          · intro _
            exact h.idDone (by rw [heq]; simp)
          · intro _ hx
            exact absurd (show CLOSING = CONNECTING from hx) (by decide)
          · intro hph
            have hdone := h.idDone (by rw [heq]; simp)
            have hph2 : s.connPhase = ConnPhase.connecting := hph
            rw [hph2] at hdone
            exact absurd hdone (by simp)
          · intro _ hx
            exact absurd (show CLOSING = CONNECTING from hx) (by decide)
        · have h0 : closeCount s.events = 0 := by
            have := h.closeAcct
            rw [hcf] at this
            simpa using this
          have hcf2 : ({ s with readyState := CLOSING } : SocketState).isClosed = false := hcf
          rw [handleClose_of_not_closed _ code reason _ hcf2]
          refine ⟨?_, ?_, ?_, h.queueSplit, h.sizesOk, h.subm, h.headEx,
                  h.inflightOk, h.loopHeadOk, ?_, h.sendingIff,
                  h.drainsCount, h.bufferedSum, h.idDone, ?_, ?_, ?_⟩
          · show closeCount (s.events ++ _) = _
            rw [closeCount_append, h0]
            rfl
          · intro _; rfl
          · simp [CLOSED]
          · intro _ _
            rfl
          · intro _ hx
            exact absurd (show CLOSED = CONNECTING from hx) (by decide)
          · intro _ hx
            exact absurd (show CLOSED = CLOSING from hx) (by decide)
          · intro _ hx
            exact absurd (show CLOSED = CONNECTING from hx) (by decide)
  | closeFinalize =>
      show Inv (closeFinalizeStep s)
      unfold closeFinalizeStep
      split
      · exact inv_fields _ _ (inv_handleClose s _ _ _ h) rfl rfl rfl rfl rfl
          rfl rfl rfl rfl rfl rfl rfl rfl rfl
      · exact h

theorem inv_run : ∀ (acts : List Action) (s : SocketState),
    Inv s → Inv (run s acts)
  | [], _, h => h
  | a :: rest, s, h => inv_run rest (step s a) (inv_step s a h)

theorem inv_reachable (acts : List Action) : Inv (run initState acts) :=
  inv_run acts initState inv_initState

/-! ## Field-preservation lemmas for single operations -/

theorem handleClose_submitted (s : SocketState) (c : Nat) (r : String)
    (w : Bool) : (handleClose s c r w).submitted = s.submitted := by
  unfold handleClose; split <;> rfl

theorem handleClose_dequeued (s : SocketState) (c : Nat) (r : String)
    (w : Bool) : (handleClose s c r w).dequeuedList = s.dequeuedList := by
  unfold handleClose; split <;> rfl

theorem handleError_submitted (s : SocketState) (msg : String) :
    (handleError s msg).submitted = s.submitted := by
  unfold handleError
  split
  · rfl
  · rw [handleClose_submitted]

theorem handleError_dequeued (s : SocketState) (msg : String) :
    (handleError s msg).dequeuedList = s.dequeuedList := by
  unfold handleError
  split
  · rfl
  · rw [handleClose_dequeued]

theorem handleMessage_submitted (s : SocketState) (m : InboundMessage) :
    (handleMessage s m).submitted = s.submitted := by
  unfold handleMessage
  split
  · rfl
  · split
    · rw [handleClose_submitted]
    · split <;> rfl

theorem handleMessage_dequeued (s : SocketState) (m : InboundMessage) :
    (handleMessage s m).dequeuedList = s.dequeuedList := by
  unfold handleMessage
  split
  · rfl
  · split
    · rw [handleClose_dequeued]
    · split <;> rfl

theorem foldl_hm_submitted : ∀ (msgs : List InboundMessage) (s : SocketState),
    (msgs.foldl handleMessage s).submitted = s.submitted
  | [], _ => rfl
  | m :: rest, s => by
      rw [List.foldl_cons, foldl_hm_submitted rest, handleMessage_submitted]

theorem foldl_hm_dequeued : ∀ (msgs : List InboundMessage) (s : SocketState),
    (msgs.foldl handleMessage s).dequeuedList = s.dequeuedList
  | [], _ => rfl
  | m :: rest, s => by
      rw [List.foldl_cons, foldl_hm_dequeued rest, handleMessage_dequeued]

theorem flushQueue_submitted (s : SocketState) :
    (flushQueue s).submitted = s.submitted := by
  unfold flushQueue; split <;> rfl

theorem flushQueue_dequeued (s : SocketState) :
    (flushQueue s).dequeuedList = s.dequeuedList := by
  unfold flushQueue; split <;> rfl

theorem flushQueue_fields (s : SocketState) :
    (flushQueue s).sendQueue = s.sendQueue
      ∧ (flushQueue s).bufferedAmount = s.bufferedAmount
      ∧ (flushQueue s).events = s.events
      ∧ (flushQueue s).readyState = s.readyState
      ∧ (flushQueue s).isClosed = s.isClosed
      ∧ (flushQueue s).acceptedSends = s.acceptedSends := by
  unfold flushQueue
  split <;> exact ⟨rfl, rfl, rfl, rfl, rfl, rfl⟩

/-- `submitted` only grows by one frame at a time, and only on a drain turn
taken at the loop head (in particular, never while a submission is still in
flight). -/
theorem submitted_step (s : SocketState) (a : Action) :
    (step s a).submitted = s.submitted
      ∨ (s.drain = .loopHead
          ∧ ∃ w, (step s a).submitted = s.submitted ++ [w]) := by
  cases a with
  | connectOk cid p =>
      refine Or.inl ?_
      show (if s.connPhase = .connecting then _ else s).submitted = _
      split <;> rfl
  | connectFail msg =>
      refine Or.inl ?_
      show (if s.connPhase = .connecting then _ else s).submitted = _
      split
      · show (handleError s msg).submitted = _
        rw [handleError_submitted]
      · rfl
  | sendCall d =>
      refine Or.inl ?_
      show (match queueSend s d with
            | .ok s1 => s1 | .error _ => s).submitted = _
      unfold queueSend
      by_cases ho : s.readyState ≠ OPEN
      · rw [if_pos ho]
      · rw [if_neg ho]
        show (flushQueue _).submitted = _
        rw [flushQueue_submitted]
  | drainStep =>
      show (drainIter s).submitted = s.submitted
        ∨ (s.drain = .loopHead
            ∧ ∃ w, (drainIter s).submitted = s.submitted ++ [w])
      unfold drainIter
      split
      · rename_i hd
        split
        · exact Or.inl rfl
        · split
          · exact Or.inl rfl
          · split
            · refine Or.inl ?_
              show (handleError s _).submitted = _
              rw [handleError_submitted]
            · rename_i w henc
              exact Or.inr ⟨hd, w, rfl⟩
      · exact Or.inl rfl
  | ackOk =>
      refine Or.inl ?_
      show (ackOkStep s).submitted = _
      unfold ackOkStep
      split <;> rfl
  | ackFail msg =>
      refine Or.inl ?_
      show (ackFailStep s msg).submitted = _
      unfold ackFailStep
      split
      · show (handleError s msg).submitted = _
        rw [handleError_submitted]
      · rfl
  | pollRequest =>
      refine Or.inl ?_
      show (if _ then _ else s).submitted = _
      split <;> rfl
  | pollStop =>
      refine Or.inl ?_
      show (if _ then _ else s).submitted = _
      split <;> rfl
  | pollResolveOk msgs =>
      refine Or.inl ?_
      show (if _ then _ else s).submitted = _
      split
      · show (msgs.foldl handleMessage s).submitted = _
        rw [foldl_hm_submitted]
      · rfl
  | pollResolveFail msg =>
      refine Or.inl ?_
      show (if _ then _ else s).submitted = _
      split
      · show (if s.isClosed = true then s else handleError s msg).submitted
          = _
        split
        · rfl
        · rw [handleError_submitted]
      · rfl
  | closeCall c r =>
      refine Or.inl ?_
      show (socketClose s c r).submitted = _
      unfold socketClose
      split
      · rfl
      · split
        · rfl
        · show (handleClose _ _ _ _).submitted = _
          rw [handleClose_submitted]
  | closeFinalize =>
      refine Or.inl ?_
      show (closeFinalizeStep s).submitted = _
      unfold closeFinalizeStep
      split
      · show (handleClose s _ _ _).submitted = _
        rw [handleClose_submitted]
      · rfl

/-- A frame is dequeued only by the acknowledgment of its submission. -/
theorem dequeued_step (s : SocketState) (a : Action) :
    (step s a).dequeuedList = s.dequeuedList ∨ a = .ackOk := by
  cases a with
  | connectOk cid p =>
      refine Or.inl ?_
      show (if s.connPhase = .connecting then _ else s).dequeuedList = _
      split <;> rfl
  | connectFail msg =>
      refine Or.inl ?_
      show (if s.connPhase = .connecting then _ else s).dequeuedList = _
      split
      · show (handleError s msg).dequeuedList = _
        rw [handleError_dequeued]
      · rfl
  | sendCall d =>
      refine Or.inl ?_
      show (match queueSend s d with
            | .ok s1 => s1 | .error _ => s).dequeuedList = _
      unfold queueSend
      by_cases ho : s.readyState ≠ OPEN
      · rw [if_pos ho]
      · rw [if_neg ho]
        show (flushQueue _).dequeuedList = _
        rw [flushQueue_dequeued]
  | drainStep =>
      refine Or.inl ?_
      show (drainIter s).dequeuedList = _
      unfold drainIter
      split
      · split
        · rfl
        · split
          · rfl
          · split
            · show (handleError s _).dequeuedList = _
              rw [handleError_dequeued]
            · rfl
      · rfl
  | ackOk => exact Or.inr rfl
  | ackFail msg =>
      refine Or.inl ?_
      show (ackFailStep s msg).dequeuedList = _
      unfold ackFailStep
      split
      · show (handleError s msg).dequeuedList = _
        rw [handleError_dequeued]
      · rfl
  | pollRequest =>
      refine Or.inl ?_
      show (if _ then _ else s).dequeuedList = _
      split <;> rfl
  | pollStop =>
      refine Or.inl ?_
      show (if _ then _ else s).dequeuedList = _
      split <;> rfl
  | pollResolveOk msgs =>
      refine Or.inl ?_
      show (if _ then _ else s).dequeuedList = _
      split
      · show (msgs.foldl handleMessage s).dequeuedList = _
        rw [foldl_hm_dequeued]
      · rfl
  | pollResolveFail msg =>
      refine Or.inl ?_
      show (if _ then _ else s).dequeuedList = _
      split
      · show (if s.isClosed = true then s
              else handleError s msg).dequeuedList = _
        split
        · rfl
        · rw [handleError_dequeued]
      · rfl
  | closeCall c r =>
      refine Or.inl ?_
      show (socketClose s c r).dequeuedList = _
      unfold socketClose
      split
      · rfl
      · split
        · rfl
        · show (handleClose _ _ _ _).dequeuedList = _
          rw [handleClose_dequeued]
  | closeFinalize =>
      refine Or.inl ?_
      show (closeFinalizeStep s).dequeuedList = _
      unfold closeFinalizeStep
      split
      · show (handleClose s _ _ _).dequeuedList = _
        rw [handleClose_dequeued]
      · rfl

/-! ## readyState transition analysis -/

theorem amended_into_closed (x : Nat) (hx : x < 4) :
    CLOSED = x ∨ allowedAmended (x, CLOSED) = true := by
  interval_cases x <;> decide

theorem amended_into_open (x : Nat) (hx : x < 4) (h2 : x ≠ 2) :
    OPEN = x ∨ allowedAmended (x, OPEN) = true := by
  interval_cases x <;> first | decide | omega

theorem amended_into_closing (x : Nat) (hx : x < 4) (h0 : x ≠ 0)
    (h2 : x ≠ 2) (h3 : x ≠ 3) :
    CLOSING = x ∨ allowedAmended (x, CLOSING) = true := by
  interval_cases x <;> first | decide | omega
theorem handleClose_readyState (s : SocketState) (c : Nat) (r : String)
    (w : Bool) :
    (handleClose s c r w).readyState = s.readyState
      ∨ (s.isClosed = false ∧ (handleClose s c r w).readyState = CLOSED) := by
  cases hc : s.isClosed
  · rw [handleClose_of_not_closed s c r w hc]
    exact Or.inr ⟨rfl, rfl⟩
  · rw [handleClose_of_closed s c r w hc]
    exact Or.inl rfl

theorem handleError_readyState (s : SocketState) (msg : String) :
    (handleError s msg).readyState = s.readyState
      ∨ (handleError s msg).readyState = CLOSED := by
  cases hc : s.isClosed
  · rw [handleError_of_not_closed s msg hc]
    exact Or.inr rfl
  · rw [handleError_of_closed s msg hc]
    exact Or.inl rfl

theorem handleMessage_readyState (s : SocketState) (m : InboundMessage) :
    (handleMessage s m).readyState = s.readyState
      ∨ (s.readyState = OPEN ∧ (handleMessage s m).readyState = CLOSED) := by
  unfold handleMessage
  split
  · exact Or.inl rfl
  · rename_i ho
    push_neg at ho
    split
    · rcases handleClose_readyState s (jsOrCode m.code) (m.reason.getD "")
          (decide (m.code = some 1000)) with h1 | ⟨_, h2⟩
      · exact Or.inl h1
      · exact Or.inr ⟨ho, h2⟩
    · split
      · exact Or.inl rfl
      · exact Or.inl rfl

theorem foldl_hm_readyState :
    ∀ (msgs : List InboundMessage) (s : SocketState),
    (msgs.foldl handleMessage s).readyState = s.readyState
      ∨ (s.readyState = OPEN
          ∧ (msgs.foldl handleMessage s).readyState = CLOSED)
  | [], _ => Or.inl rfl
  | m :: rest, s => by
      rw [List.foldl_cons]
      rcases handleMessage_readyState s m with h1 | ⟨h1, h2⟩
      · rcases foldl_hm_readyState rest (handleMessage s m) with h3 | ⟨h3, h4⟩
        · exact Or.inl (by rw [h3, h1])
        · exact Or.inr ⟨by rw [← h1, h3], h4⟩
      · rcases foldl_hm_readyState rest (handleMessage s m) with h3 | ⟨h3, h4⟩
        · exact Or.inr ⟨h1, by rw [h3, h2]⟩
        · rw [h2] at h3
          exact absurd h3 (by decide)

theorem connectOk_readyState (s : SocketState) (cid : Nat)
    (p : Option String) :
    (step s (.connectOk cid p)).readyState = s.readyState
      ∨ (s.connPhase = .connecting
          ∧ (step s (.connectOk cid p)).readyState = OPEN) := by
  show (if s.connPhase = .connecting then _ else s).readyState = _
    ∨ (s.connPhase = .connecting
        ∧ (if s.connPhase = .connecting then _ else s).readyState = OPEN)
  split
  · rename_i hph
    exact Or.inr ⟨hph, rfl⟩
  · exact Or.inl rfl

theorem connectFail_readyState (s : SocketState) (msg : String) :
    (step s (.connectFail msg)).readyState = s.readyState
      ∨ (step s (.connectFail msg)).readyState = CLOSED := by
  show (if s.connPhase = .connecting then _ else s).readyState = _
    ∨ (if s.connPhase = .connecting then _ else s).readyState = CLOSED
  split
  · show (handleError s msg).readyState = _
      ∨ (handleError s msg).readyState = CLOSED
    exact handleError_readyState s msg
  · exact Or.inl rfl

theorem sendCall_readyState (s : SocketState) (d : RawData) :
    (step s (.sendCall d)).readyState = s.readyState := by
  show (match queueSend s d with
        | .ok s1 => s1 | .error _ => s).readyState = _
  unfold queueSend
  by_cases ho : s.readyState ≠ OPEN
  · rw [if_pos ho]
  · rw [if_neg ho]
    show (flushQueue _).readyState = _
    rw [(flushQueue_fields _).2.2.2.1]

theorem drainIter_readyState (s : SocketState) :
    (step s .drainStep).readyState = s.readyState
      ∨ (step s .drainStep).readyState = CLOSED := by
  show (drainIter s).readyState = s.readyState
    ∨ (drainIter s).readyState = CLOSED
  unfold drainIter
  split
  · split
    · exact Or.inl rfl
    · split
      · exact Or.inl rfl
      · split
        · show (handleError s _).readyState = _
            ∨ (handleError s _).readyState = CLOSED
          exact handleError_readyState s _
        · exact Or.inl rfl
  · exact Or.inl rfl

theorem ackOk_readyState (s : SocketState) :
    (step s .ackOk).readyState = s.readyState := by
  show (ackOkStep s).readyState = _
  unfold ackOkStep
  split <;> rfl

theorem ackFail_readyState (s : SocketState) (msg : String) :
    (step s (.ackFail msg)).readyState = s.readyState
      ∨ (step s (.ackFail msg)).readyState = CLOSED := by
  show (ackFailStep s msg).readyState = _
    ∨ (ackFailStep s msg).readyState = CLOSED
  unfold ackFailStep
  split
  · show (handleError s msg).readyState = _
      ∨ (handleError s msg).readyState = CLOSED
    exact handleError_readyState s msg
  · exact Or.inl rfl

theorem pollRequest_readyState (s : SocketState) :
    (step s .pollRequest).readyState = s.readyState := by
  show (if _ then _ else s).readyState = _
  split <;> rfl

theorem pollStop_readyState (s : SocketState) :
    (step s .pollStop).readyState = s.readyState := by
  show (if _ then _ else s).readyState = _
  split <;> rfl

theorem pollResolveOk_readyState (s : SocketState)
    (msgs : List InboundMessage) :
    (step s (.pollResolveOk msgs)).readyState = s.readyState
      ∨ (s.readyState = OPEN
          ∧ (step s (.pollResolveOk msgs)).readyState = CLOSED) := by
  show (if s.pollPhase = .awaiting then _ else s).readyState = _
    ∨ (s.readyState = OPEN
        ∧ (if s.pollPhase = .awaiting then _ else s).readyState = CLOSED)
  split
  · show (msgs.foldl handleMessage s).readyState = _
      ∨ (s.readyState = OPEN
          ∧ (msgs.foldl handleMessage s).readyState = CLOSED)
    exact foldl_hm_readyState msgs s
  · exact Or.inl rfl

theorem pollResolveFail_readyState (s : SocketState) (msg : String) :
    (step s (.pollResolveFail msg)).readyState = s.readyState
      ∨ (step s (.pollResolveFail msg)).readyState = CLOSED := by
  show (if s.pollPhase = .awaiting then _ else s).readyState = _
    ∨ (if s.pollPhase = .awaiting then _ else s).readyState = CLOSED
  split
  · show (if s.isClosed = true then s
          else handleError s msg).readyState = _
      ∨ (if s.isClosed = true then s
          else handleError s msg).readyState = CLOSED
    split
    · exact Or.inl rfl
    · exact handleError_readyState s msg
  · exact Or.inl rfl

theorem closeCall_readyState (s : SocketState) (c : Nat) (r : String) :
    (step s (.closeCall c r)).readyState = s.readyState
      ∨ (s.isClosed = false ∧ s.readyState ≠ CLOSING ∧ s.connId ≠ none
          ∧ (step s (.closeCall c r)).readyState = CLOSING)
      ∨ (step s (.closeCall c r)).readyState = CLOSED := by
  show (socketClose s c r).readyState = _
    ∨ (_ ∧ _ ∧ _ ∧ (socketClose s c r).readyState = CLOSING)
    ∨ (socketClose s c r).readyState = CLOSED
  unfold socketClose
  split
  · exact Or.inl rfl
  · rename_i hg
    push_neg at hg
    have hcf : s.isClosed = false := by
      cases hcb : s.isClosed
      · rfl
      · exact absurd hcb hg.1
    split
    · rename_i x heq
      refine Or.inr (Or.inl ⟨hcf, hg.2, ?_, rfl⟩)
      rw [heq]
      simp
    · refine Or.inr (Or.inr ?_)
      have hcf2 : ({ s with readyState := CLOSING } : SocketState).isClosed = false := hcf
      rw [handleClose_of_not_closed _ c r _ hcf2]

theorem closeFinalize_readyState (s : SocketState) :
    (step s .closeFinalize).readyState = s.readyState
      ∨ (step s .closeFinalize).readyState = CLOSED := by
  show (closeFinalizeStep s).readyState = _
    ∨ (closeFinalizeStep s).readyState = CLOSED
  unfold closeFinalizeStep
  split
  · show (handleClose s _ _ _).readyState = _
      ∨ (handleClose s _ _ _).readyState = CLOSED
    rcases handleClose_readyState s _ _ _ with h1 | ⟨_, h1⟩
    · exact Or.inl h1
    · exact Or.inr h1
  · exact Or.inl rfl

/-- Every transition `step` can make from a state satisfying the invariant
lies in the amended transition relation (or leaves readyState unchanged). -/
theorem step_transition (s : SocketState) (a : Action) (h : Inv s) :
    (step s a).readyState = s.readyState
      ∨ allowedAmended (s.readyState, (step s a).readyState) = true := by
  cases a with
  | connectOk cid p =>
      rcases connectOk_readyState s cid p with h1 | ⟨hph, h1⟩
      · exact Or.inl h1
      · rw [h1]
        exact amended_into_open s.readyState h.rsRange
          (h.connectingNotClosing hph)
  | connectFail msg =>
      rcases connectFail_readyState s msg with h1 | h1
      · exact Or.inl h1
      · rw [h1]
        exact amended_into_closed s.readyState h.rsRange
  | sendCall d => exact Or.inl (sendCall_readyState s d)
  | drainStep =>
      rcases drainIter_readyState s with h1 | h1
      · exact Or.inl h1
      · rw [h1]
        exact amended_into_closed s.readyState h.rsRange
  | ackOk => exact Or.inl (ackOk_readyState s)
  | ackFail msg =>
      rcases ackFail_readyState s msg with h1 | h1
      · exact Or.inl h1
      · rw [h1]
        exact amended_into_closed s.readyState h.rsRange
  | pollRequest => exact Or.inl (pollRequest_readyState s)
  | pollStop => exact Or.inl (pollStop_readyState s)
  | pollResolveOk msgs =>
      rcases pollResolveOk_readyState s msgs with h1 | ⟨h1, h2⟩
      · exact Or.inl h1
      · rw [h1, h2]
        exact Or.inr (by decide)
  | pollResolveFail msg =>
      rcases pollResolveFail_readyState s msg with h1 | h1
      · exact Or.inl h1
      · rw [h1]
        exact amended_into_closed s.readyState h.rsRange
  | closeCall c r =>
      rcases closeCall_readyState s c r with h1 | ⟨hnc, hncl, hnid, h1⟩ | h1
      · exact Or.inl h1
      · rw [h1]
        have h3 : s.readyState ≠ CLOSED := fun hh => by
          rw [h.closedState hh] at hnc
          exact Bool.true_eq_false.mp hnc
        have h0 : s.readyState ≠ CONNECTING :=
          h.doneNotConnecting (h.idDone hnid)
        exact amended_into_closing s.readyState h.rsRange h0 hncl h3
      · rw [h1]
        exact amended_into_closed s.readyState h.rsRange
  | closeFinalize =>
      rcases closeFinalize_readyState s with h1 | h1
      · exact Or.inl h1
      · rw [h1]
        exact amended_into_closed s.readyState h.rsRange
/-! ## Further supporting lemmas for the claims -/

theorem sendCall_open_fields (s : SocketState) (d : RawData)
    (h : s.readyState = OPEN) :
    (step s (.sendCall d)).bufferedAmount
        = s.bufferedAmount + (calculateSize d : Int)
      ∧ (step s (.sendCall d)).acceptedSends = s.acceptedSends ++ [d]
      ∧ (step s (.sendCall d)).readyState = OPEN := by
  refine ⟨?_, ?_, ?_⟩
  · show (match queueSend s d with
          | .ok s1 => s1 | .error _ => s).bufferedAmount = _
    unfold queueSend
    rw [if_neg (by simp [h])]
    show (flushQueue _).bufferedAmount = _
    rw [(flushQueue_fields _).2.1]
  · show (match queueSend s d with
          | .ok s1 => s1 | .error _ => s).acceptedSends = _
    unfold queueSend
    rw [if_neg (by simp [h])]
    show (flushQueue _).acceptedSends = _
    rw [(flushQueue_fields _).2.2.2.2.2]
  · show (match queueSend s d with
          | .ok s1 => s1 | .error _ => s).readyState = _
    unfold queueSend
    rw [if_neg (by simp [h])]
    show (flushQueue _).readyState = _
    rw [(flushQueue_fields _).2.2.2.1]
    exact h

theorem sends_only : ∀ (payloads : List RawData) (s : SocketState),
    s.readyState = OPEN →
    (run s (payloads.map .sendCall)).bufferedAmount
        = s.bufferedAmount + ((payloads.map calculateSize).sum : Int)
      ∧ (run s (payloads.map .sendCall)).acceptedSends
        = s.acceptedSends ++ payloads
      ∧ (run s (payloads.map .sendCall)).readyState = OPEN
  | [], s, h => ⟨by simp [run], by simp [run], h⟩
  | d :: rest, s, h => by
      obtain ⟨hb, ha, hr⟩ := sendCall_open_fields s d h
      obtain ⟨hb2, ha2, hr2⟩ := sends_only rest (step s (.sendCall d)) hr
      have hrun : run s ((d :: rest).map .sendCall)
          = run (step s (.sendCall d)) (rest.map .sendCall) := rfl
      rw [hrun]
      refine ⟨?_, ?_, hr2⟩
      · rw [hb2, hb]
        push_cast [List.map_cons, List.sum_cons]
        ring
      · rw [ha2, ha]
        simp

/-! ## The claims -/

/-- C1: for every execution, the wire frames submitted to the transport are
exactly the encodings of the prefix of accepted `send()` payloads in call
order (those dequeued plus, possibly, the currently submitted head); at most
one drain activity runs at a time; while a submission is in flight the frame
is still at the queue head and its size is still in the buffered count (it
is dequeued and its size removed only on acknowledgment, by `ackOk`); a new
frame is submitted only from the drain loop head, i.e. only after the
previous submission was acknowledged; and only an acknowledgment dequeues. -/
theorem send_fifo_ordering (acts : List Action) :
    ((run initState acts).submitted.map Option.some
        = (((run initState acts).acceptedSends.take
            ((run initState acts).dequeuedList.length
              + (if (run initState acts).headSubmitted = true then 1
                 else 0))).map encodeFrame))
    ∧ (run initState acts).activeDrains ≤ 1
    ∧ (∀ raw sz w, (run initState acts).drain = .inFlight raw sz w →
        (run initState acts).sendQueue.head? = some (raw, sz)
          ∧ (sz : Int) ≤ (run initState acts).bufferedAmount)
    ∧ (∀ a, (step (run initState acts) a).submitted
          = (run initState acts).submitted
        ∨ ((run initState acts).drain = .loopHead
            ∧ ∃ w, (step (run initState acts) a).submitted
                = (run initState acts).submitted ++ [w]))
    ∧ (∀ a, (step (run initState acts) a).dequeuedList
          = (run initState acts).dequeuedList ∨ a = .ackOk) := by
  have h := inv_reachable acts
  refine ⟨h.subm, ?_, ?_, fun a => submitted_step _ a,
          fun a => dequeued_step _ a⟩
  · rw [h.drainsCount]
    split <;> omega
  · intro raw sz w hw
    obtain ⟨hhs, hhead, henc⟩ := h.inflightOk raw sz w hw
    refine ⟨hhead, ?_⟩
    obtain ⟨rest, hq⟩ : ∃ rest,
        (run initState acts).sendQueue = (raw, sz) :: rest := by
      cases hqq : (run initState acts).sendQueue with
      | nil => rw [hqq] at hhead; simp at hhead
      | cons p rest =>
          rw [hqq] at hhead
          simp at hhead
          subst hhead
          exact ⟨rest, rfl⟩
    rw [h.bufferedSum, hq]
    have hle : sz ≤ (((raw, sz) :: rest).map Prod.snd).sum := by
      simp only [List.map_cons, List.sum_cons]
      omega
    exact_mod_cast hle

/-- Witness for C1 at a concrete execution with a submission in flight. -/
theorem send_fifo_ordering_witness :
    (run initState [.connectOk 1 none, .sendCall (.arrayBuffer [1, 2]),
        .drainStep]).sendQueue.head? = some (.arrayBuffer [1, 2], 2)
      ∧ (2 : Int) ≤ (run initState [.connectOk 1 none,
          .sendCall (.arrayBuffer [1, 2]), .drainStep]).bufferedAmount :=
  (send_fifo_ordering [.connectOk 1 none, .sendCall (.arrayBuffer [1, 2]),
      .drainStep]).2.2.1 (.arrayBuffer [1, 2]) 2
    (.binary [65, 81, 73, 61]) (by decide)

/-- C2: finalization is idempotent — once the closed flag is set,
`handleClose` is a no-op; consequently every execution emits at most one
close event, and the concrete double-`close()` execution emits exactly
one. -/
theorem finalize_idempotent :
    (∀ (s : SocketState) (c : Nat) (r : String) (w : Bool),
        s.isClosed = true → handleClose s c r w = s)
    ∧ (∀ acts : List Action, closeCount (run initState acts).events ≤ 1)
    ∧ closeCount (run initState [.connectOk 1 none, .closeCall 1000 "",
        .closeFinalize, .closeCall 1000 "", .closeFinalize]).events = 1 := by
  refine ⟨handleClose_of_closed, ?_, by decide⟩
  intro acts
  rw [(inv_reachable acts).closeAcct]
  split <;> omega

/-- Witness for C2: a second finalization on a concretely closed state is a
no-op. -/
theorem finalize_idempotent_witness :
    handleClose (run initState [.connectOk 1 none, .closeCall 1000 "",
        .closeFinalize]) 1005 "again" false
      = run initState [.connectOk 1 none, .closeCall 1000 "", .closeFinalize] :=
  finalize_idempotent.1
    (run initState [.connectOk 1 none, .closeCall 1000 "", .closeFinalize])
    1005 "again" false (by decide)

/-- C3 counterexample: the code exhibits transitions outside the claimed
set: OPEN→CLOSED directly (a poll failure while OPEN finalizes without
passing through CLOSING), and CLOSED→OPEN (`close()` during CONNECTING has
`connId` null, so its async body has no await and finalizes to CLOSED
synchronously; the connect request then resolves and `handleOpen`, which
never checks the closed flag, moves the state back to OPEN). -/
theorem state_monotonic_cex :
    ((run initState [.connectOk 1 none, .pollRequest]).readyState = OPEN
      ∧ (run initState [.connectOk 1 none, .pollRequest,
          .pollResolveFail "boom"]).readyState = CLOSED
      ∧ allowedTransition (OPEN, CLOSED) = false)
    ∧ ((run initState [.closeCall 1000 ""]).readyState = CLOSED
      ∧ (run initState [.closeCall 1000 "",
          .connectOk 1 none]).readyState = OPEN
      ∧ allowedTransition (CLOSED, OPEN) = false) := by decide

/-- C3 amended: every transition any scheduler turn makes from a reachable
state is either a stutter or lies in the amended relation: the four
specified transitions plus OPEN→CLOSED and CLOSED→OPEN. -/
theorem state_monotonic_amended (acts : List Action) (a : Action) :
    (step (run initState acts) a).readyState
        = (run initState acts).readyState
      ∨ allowedAmended ((run initState acts).readyState,
          (step (run initState acts) a).readyState) = true :=
  step_transition (run initState acts) a (inv_reachable acts)

/-- C4 counterexample: a poll failure arriving while the state is CLOSING
(close requested but not yet finalized) is not suppressed — it emits an
error event and finalizes with 1006. -/
theorem transport_failure_cex :
    (run initState [.connectOk 1 none, .closeCall 1000 "bye",
        .pollRequest]).readyState = CLOSING
      ∧ (run initState [.connectOk 1 none, .closeCall 1000 "bye",
          .pollRequest]).isClosed = false
      ∧ errorCount (run initState [.connectOk 1 none, .closeCall 1000 "bye",
          .pollRequest, .pollResolveFail "boom"]).events = 1
      ∧ closeCount (run initState [.connectOk 1 none, .closeCall 1000 "bye",
          .pollRequest, .pollResolveFail "boom"]).events = 1
      ∧ (run initState [.connectOk 1 none, .closeCall 1000 "bye",
          .pollRequest, .pollResolveFail "boom"]).events.getLast?
        = some (.close 1006 "boom" false) := by decide

/-- C4 amended: a transport failure is suppressed exactly when the closed
flag is already set; otherwise (including while CLOSING but not yet
finalized) it emits exactly one error event followed by finalization with
code 1006 and `wasClean = false`; the open, poll and submit failure paths
all route through this `handleError` behaviour. -/
theorem transport_failure_amended :
    (∀ (s : SocketState) (msg : String), s.isClosed = true →
        handleError s msg = s)
    ∧ (∀ (s : SocketState) (msg : String), s.isClosed = false →
        (handleError s msg).events = s.events
            ++ [.error msg, .close 1006
                (if msg = "" then "Unexpected error" else msg) false]
          ∧ (handleError s msg).isClosed = true
          ∧ (handleError s msg).readyState = CLOSED)
    ∧ (∀ (s : SocketState) (msg : String), s.connPhase = .connecting →
        (step s (.connectFail msg)).events = (handleError s msg).events)
    ∧ (∀ (s : SocketState) (msg : String), s.pollPhase = .awaiting →
        (step s (.pollResolveFail msg)).events = (handleError s msg).events)
    ∧ (∀ (s : SocketState) (msg : String) (raw : RawData) (sz : Nat)
        (w : WireFrame), s.drain = .inFlight raw sz w →
        (step s (.ackFail msg)).events = (handleError s msg).events) := by
  refine ⟨handleError_of_closed, ?_, ?_, ?_, ?_⟩
  · intro s msg hc
    rw [handleError_of_not_closed s msg hc]
    exact ⟨rfl, rfl, rfl⟩
  · intro s msg hcp
    show (if s.connPhase = .connecting then _ else s).events = _
    rw [if_pos hcp]
  · intro s msg hp
    show (if s.pollPhase = .awaiting then _ else s).events = _
    rw [if_pos hp]
    show (if s.isClosed = true then s else handleError s msg).events = _
    split
    · rename_i hc
      rw [handleError_of_closed s msg hc]
    · rfl
  · intro s msg raw sz w hd
    show (ackFailStep s msg).events = _
    unfold ackFailStep
    rw [hd]

/-- Witness for C4 on a concretely open (not yet closed) state. -/
theorem transport_failure_amended_witness :
    (run initState [.connectOk 1 none]).isClosed = false
      ∧ (handleError (run initState [.connectOk 1 none]) "boom").events
        = (run initState [.connectOk 1 none]).events
          ++ [.error "boom", .close 1006
              (if "boom" = "" then "Unexpected error" else "boom") false] :=
  ⟨by decide, (transport_failure_amended.2.1
      (run initState [.connectOk 1 none]) "boom" (by decide)).1⟩

/-- C5: `send()` in any state other than OPEN throws synchronously
(`WebSocket is not open`) and the whole state — queue, buffered byte count,
readyState, everything — is unchanged. -/
theorem send_rejected_unless_open :
    (∀ (s : SocketState) (d : RawData), s.readyState ≠ OPEN →
        queueSend s d = Except.error "WebSocket is not open")
    ∧ (∀ (s : SocketState) (d : RawData), s.readyState ≠ OPEN →
        step s (.sendCall d) = s) := by
  constructor
  · intro s d hno
    unfold queueSend
    rw [if_pos hno]
  · intro s d hno
    show (match queueSend s d with | .ok s1 => s1 | .error _ => s) = s
    unfold queueSend
    rw [if_pos hno]

/-- Witness for C5 on the freshly constructed (CONNECTING) state. -/
theorem send_rejected_unless_open_witness :
    queueSend initState (.arrayBuffer [1])
        = Except.error "WebSocket is not open"
      ∧ step initState (.sendCall (.arrayBuffer [1])) = initState :=
  ⟨send_rejected_unless_open.1 initState (.arrayBuffer [1]) (by decide),
   send_rejected_unless_open.2 initState (.arrayBuffer [1]) (by decide)⟩

/-- C6 counterexample: `send()` of an unsupported payload while OPEN does
not raise synchronously — it returns normally and enqueues a frame of size
0; the failure then surfaces asynchronously on the next drain turn as an
error event followed by a close event (code 1006), finalizing the
connection. -/
theorem unsupported_payload_cex :
    queueSend (run initState [.connectOk 1 none]) RawData.other
        = Except.ok (run initState [.connectOk 1 none,
            .sendCall RawData.other])
      ∧ (run initState [.connectOk 1 none,
          .sendCall RawData.other]).sendQueue = [(RawData.other, 0)]
      ∧ (run initState [.connectOk 1 none, .sendCall RawData.other,
          .drainStep]).events
        = [.openEvt, .error "Unsupported data type",
           .close 1006 "Unsupported data type" false]
      ∧ (run initState [.connectOk 1 none, .sendCall RawData.other,
          .drainStep]).isClosed = true :=
  ⟨rfl, by decide, by decide, by decide⟩

/-- C6 amended: while OPEN, `send()` accepts an unsupported payload
synchronously (enqueued with computed size 0, buffered byte count, events
and lifecycle state unchanged); when the drain activity reaches that frame
the `Unsupported data type` error is routed through the error path: an
error event is emitted and the connection finalizes with code 1006,
`wasClean = false` (unless the connection is already closed). -/
theorem unsupported_payload_amended :
    (∀ s : SocketState, s.readyState = OPEN →
        ∃ s1, queueSend s RawData.other = Except.ok s1
          ∧ step s (.sendCall RawData.other) = s1
          ∧ s1.sendQueue = s.sendQueue ++ [(RawData.other, 0)]
          ∧ s1.bufferedAmount = s.bufferedAmount
          ∧ s1.events = s.events
          ∧ s1.readyState = OPEN
          ∧ s1.isClosed = s.isClosed)
    ∧ (∀ (s : SocketState) (sz : Nat) (rest : List (RawData × Nat)),
        s.drain = .loopHead → s.sendQueue = (RawData.other, sz) :: rest →
        s.isClosed = false →
        (step s .drainStep).events = s.events
            ++ [.error "Unsupported data type",
                .close 1006 "Unsupported data type" false]
          ∧ (step s .drainStep).isClosed = true
          ∧ (step s .drainStep).readyState = CLOSED) := by
  constructor
  · intro s ho
    have hq : queueSend s RawData.other = Except.ok (flushQueue { s with sendQueue := s.sendQueue ++ [(RawData.other, 0)], bufferedAmount := s.bufferedAmount + ((0 : Nat) : Int), acceptedSends := s.acceptedSends ++ [RawData.other] }) := by
      unfold queueSend
      rw [if_neg (by simp [ho])]
      rfl
    refine ⟨_, hq, ?_, ?_, ?_, ?_, ?_, ?_⟩
    · show (match queueSend s RawData.other with
            | .ok s1 => s1 | .error _ => s) = _
      rw [hq]
    · rw [(flushQueue_fields _).1]
    · rw [(flushQueue_fields _).2.1]
      show s.bufferedAmount + ((0 : Nat) : Int) = s.bufferedAmount
      simp
    · rw [(flushQueue_fields _).2.2.1]
    · rw [(flushQueue_fields _).2.2.2.1]
      exact ho
    · rw [(flushQueue_fields _).2.2.2.2.1]
  · intro s sz rest hd hq hc
    have hkey : ∀ t : SocketState,
        t = step s .drainStep →
        t.events = s.events
            ++ [.error "Unsupported data type",
                .close 1006 "Unsupported data type" false]
          ∧ t.isClosed = true ∧ t.readyState = CLOSED := by
      intro t ht
      have ht2 : t = drainIter s := ht
      rw [ht2]
      unfold drainIter
      rw [hd, hq, hc]
      rw [handleError_of_not_closed s _ hc]
      exact ⟨rfl, rfl, rfl⟩
    exact hkey (step s .drainStep) rfl

/-- Witness for C6 at the concretely opened connection. -/
theorem unsupported_payload_amended_witness :
    (run initState [.connectOk 1 none]).readyState = OPEN
      ∧ ∃ s1, queueSend (run initState [.connectOk 1 none]) RawData.other
          = Except.ok s1
        ∧ step (run initState [.connectOk 1 none])
            (.sendCall RawData.other) = s1
        ∧ s1.sendQueue = (run initState [.connectOk 1 none]).sendQueue
            ++ [(RawData.other, 0)]
        ∧ s1.bufferedAmount
          = (run initState [.connectOk 1 none]).bufferedAmount
        ∧ s1.events = (run initState [.connectOk 1 none]).events
        ∧ s1.readyState = OPEN
        ∧ s1.isClosed = (run initState [.connectOk 1 none]).isClosed :=
  ⟨by decide, unsupported_payload_amended.1
      (run initState [.connectOk 1 none]) (by decide)⟩

/-- C7 (code bug): an inbound item tagged `type = "text"` (the wire format
of the transport interface, also what `handleMessage` itself consults for
close items) is nonetheless delivered as binary, because `decodeMessage`
tests the absent field `messageType` instead: the radix-64 payload "aGk="
(bytes of "hi") decodes to a Blob of the raw bytes rather than to the
string "hi", and the message event delivers that Blob. -/
theorem text_item_delivered_as_binary :
    decodeMessage .blob ⟨"text", none, [97, 71, 107, 61], none, none⟩
        = some (.blob [104, 105])
      ∧ (run initState [.connectOk 1 none, .pollRequest,
          .pollResolveOk [⟨"text", none, [97, 71, 107, 61],
            none, none⟩]]).events
        = [.openEvt, .message (.blob [104, 105]) ""] := by decide

/-- C8: a binary payload round-trips losslessly through the wire encoding:
for every byte sequence (any length, so in particular empty or beyond one
0x8000 chunk), base64-decoding the chunked encoding restores exactly the
original bytes, and `decodeMessage` on a binary item carrying that encoding
delivers exactly those bytes. -/
theorem binary_roundtrip (bytes : List Nat) (h : ∀ b ∈ bytes, b < 256) :
    atob (encodeBinary bytes) = some bytes
      ∧ decodeMessage .arraybuffer
          ⟨"binary", none, encodeBinary bytes, none, none⟩
        = some (.arrayBuffer bytes) := by
  have h1 : atob (encodeBinary bytes) = some bytes := by
    unfold encodeBinary
    rw [fromCharCodeChunks_eq]
    exact atob_btoa bytes h
  refine ⟨h1, ?_⟩
  unfold decodeMessage
  rw [h1]
  simp

/-- Witness for C8 at a concrete byte sequence. -/
theorem binary_roundtrip_witness :
    (∀ b ∈ [0, 97, 255, 7], b < 256)
      ∧ atob (encodeBinary [0, 97, 255, 7]) = some [0, 97, 255, 7] :=
  ⟨by decide, (binary_roundtrip [0, 97, 255, 7] (by decide)).1⟩

/-- C9: in every reachable state the buffered byte count is ≥ 0 and equals
the sum of the sizes of the queued (accepted but unacknowledged) frames;
and after opening followed by any sequence of `send()` calls with no
acknowledgments, it equals exactly the sum of the computed sizes of those
payloads, all of which were accepted in order. -/
theorem buffered_amount_invariant :
    (∀ acts : List Action,
        0 ≤ (run initState acts).bufferedAmount
          ∧ (run initState acts).bufferedAmount
            = (((run initState acts).sendQueue.map Prod.snd).sum : Int))
    ∧ (∀ payloads : List RawData,
        (run initState
            (.connectOk 1 none :: payloads.map .sendCall)).bufferedAmount
          = ((payloads.map calculateSize).sum : Int)
        ∧ (run initState
            (.connectOk 1 none :: payloads.map .sendCall)).acceptedSends
          = payloads) := by
  constructor
  · intro acts
    have h := inv_reachable acts
    refine ⟨?_, h.bufferedSum⟩
    rw [h.bufferedSum]
    exact Int.natCast_nonneg _
  · intro payloads
    have hopen : (step initState (.connectOk 1 none)).readyState = OPEN := rfl
    obtain ⟨hb, ha, _⟩ :=
      sends_only payloads (step initState (.connectOk 1 none)) hopen
    have hrun : run initState (.connectOk 1 none :: payloads.map .sendCall)
        = run (step initState (.connectOk 1 none)) (payloads.map .sendCall) :=
      rfl
    rw [hrun]
    constructor
    · rw [hb]
      show (0 : Int) + _ = _
      simp
    · rw [ha]
      show ([] : List RawData) ++ payloads = payloads
      simp

/-- C10: a close notification received while OPEN with an absent code
finalizes with code 1000 (the `|| 1000` default) and the default empty
reason, but with `wasClean = false`, because cleanliness is computed as
`message.code === 1000` on the original, absent code before the default is
applied. -/
theorem remote_close_absent_code (s : SocketState) (d : List Nat)
    (r : Option String) (h : s.readyState = OPEN) :
    handleMessage s ⟨"close", none, d, none, r⟩
        = handleClose s 1000 (r.getD "") false
      ∧ (s.isClosed = false →
          (handleMessage s ⟨"close", none, d, none, r⟩).events
            = s.events ++ [.close 1000 (r.getD "") false]) := by
  have h1 : handleMessage s ⟨"close", none, d, none, r⟩
      = handleClose s 1000 (r.getD "") false := by
    unfold handleMessage
    rw [if_neg (by simp [h]), if_pos rfl]
    rfl
  refine ⟨h1, ?_⟩
  intro hc
  rw [h1, handleClose_of_not_closed s _ _ _ hc]

/-- Witness for C10 at the concretely opened connection. -/
theorem remote_close_absent_code_witness :
    handleMessage (run initState [.connectOk 1 none])
        ⟨"close", none, [], none, none⟩
      = handleClose (run initState [.connectOk 1 none]) 1000 "" false :=
  (remote_close_absent_code (run initState [.connectOk 1 none]) [] none
      (by decide)).1


end Polyfill
